import Mathlib

/-!
# Verification of the `panel` process-lifecycle manager

Shallow embedding of `src/models/app_manager.py` (class `AppManager`):
the process registry (`start_app`, `stop_app`, `is_app_running`), the
schedule construction step (`setup_schedules`, `check_monthly_schedule`),
the scheduled-run dispatch (`_scheduled_app_run_main_thread`,
`_start_and_show_app`, `_notify_app_started`), and the settings
load/save round trip (`load_settings`, `save_settings`).

Conventions of the embedding:
* Python dicts keyed by strings become association lists
  (`List (String × _)`) with in-place update semantics (update an
  existing key in place, append a fresh key at the end), matching
  CPython's insertion-ordered dicts; dict keys are unique, which shows
  up as `Nodup` hypotheses where it matters.
* `QProcess` side effects are recorded as an explicit action trace
  (`LaunchAction`), in the order the Python statements execute them;
  deferred `QTimer.singleShot` continuations are inlined at their firing
  point in the eventual event sequence.
* The OS spawn itself is outside the model: `start_app` never inspects
  the result of `QProcess.start` (the call is asynchronous and no error
  signal is connected), so the embedded function's outcome and state
  update are by construction independent of whether the spawn succeeds.
-/

namespace Panel

/-- Is the first character list a prefix of the second? -/
def isPrefixList : List Char → List Char → Bool
  | [], _ => true
  | _ :: _, [] => false
  | a :: as, b :: bs => a = b && isPrefixList as bs

/-- Does `needle` occur as a contiguous run inside `haystack`? -/
def isInfixList (needle : List Char) : List Char → Bool
  | [] => needle.isEmpty
  | b :: rest => isPrefixList needle (b :: rest) || isInfixList needle rest

/-- `needle in haystack` — Python's substring containment test. -/
def containsSub (haystack needle : String) : Bool :=
  isInfixList needle.toList haystack.toList

/-- Python `str.lower()` (character-wise; ASCII case folding). -/
def pyLower (s : String) : String :=
  String.mk (s.toList.map Char.toLower)

/-- Python `s.endswith(suffix)`. -/
def endsWithStr (s suffix : String) : Bool :=
  isPrefixList suffix.toList.reverse s.toList.reverse

/-- Worker for `splitWs`: consume characters, accumulating the current
word reversed, emitting a word at each whitespace boundary. -/
def splitWsAux : List Char → List Char → List String
  | [], cur => if cur.isEmpty then [] else [String.mk cur.reverse]
  | c :: cs, cur =>
    if c.isWhitespace then
      if cur.isEmpty then splitWsAux cs []
      else String.mk cur.reverse :: splitWsAux cs []
    else splitWsAux cs (c :: cur)

/-- Python `str.split()` with no separator: split on whitespace runs,
discarding empty pieces. -/
def splitWs (s : String) : List String :=
  splitWsAux s.toList []

/-- The loaded settings of one application, with the types the loader
(`load_settings`) guarantees after its defaulting pass: documented string
fields are strings, the two flags are booleans, `interval_value` is an
integer. -/
structure AppSettings where
  path : String := ""
  command : String := ""
  url : String := ""
  autorun : Bool := false
  scheduleEnabled : Bool := false
  scheduleType : String := "Interval"
  intervalValue : Int := 60
  intervalUnit : String := "Minutes"
  scheduleTime : String := "12:00"
  displayName : String := ""
  shortName : String := ""
  group : String := ""
  deriving Repr, DecidableEq

/-- The `AppManager` state the registry operations touch: `self.apps`
(name → loaded settings) and `self.processes` (the live process map,
modelled by its key set since the registry logic only tests membership,
inserts and deletes). -/
structure AppManager where
  apps : List (String × AppSettings)
  processes : List String
  deriving Repr, DecidableEq

/-- The four distinguishable outcomes of `start_app` (the Python function
returns `True` exactly for `started`; the three failure branches print
distinct messages and return `False`). -/
inductive StartOutcome where
  | started
  | noCommand
  | alreadyRunning
  | notFound
  deriving Repr, DecidableEq

/-- One observable `QProcess` side effect of `start_app`, in program
order. -/
inductive LaunchAction where
  /-- `process.setWorkingDirectory(settings["path"])` -/
  | setWorkingDirectory (dir : String)
  /-- `process.start(program, args)` — the spawn request itself. -/
  | startProc (program : String) (args : List String)
  /-- `self.processes[app_name] = process` -/
  | registerProcess (name : String)
  /-- `process.setProcessChannelMode(QProcess.MergedChannels)` -/
  | setMergedChannels
  /-- `environment.insert(key, val); process.setProcessEnvironment(...)` -/
  | setEnv (key val : String)
  deriving Repr, DecidableEq

/-- The command-shape analysis of `start_app`: from the command string to
the `(program, args)` pair handed to `QProcess.start`.  Mirrors the
`is_batch_file` / `is_python_script` / plain branches, including the
`"-u" not in command` *substring* test of the first Python sub-branch.
(The `[]` case of the two `match`es is unreachable: a command recognised
as a script or reaching `len(parts) > 1` always has a first token; Python
would raise there, and the plain branch starts the whole command
string.) -/
def computeLaunch (command : String) : String × List String :=
  let isBatch := endsWithStr (pyLower command) ".bat" || endsWithStr (pyLower command) ".cmd"
  let isPython := containsSub (pyLower command) "python" || endsWithStr (pyLower command) ".py"
  if isBatch then
    ("cmd.exe", ["/c", command])
  else if isPython then
    match splitWs command with
    | [] => ("", [])
    | program :: args =>
      if endsWithStr (pyLower program) "python.exe" || pyLower program = "python" then
        let args := if !(args.contains "-u") && !(containsSub command "-u") then
            "-u" :: args
          else args
        (program, args)
      else if endsWithStr (pyLower program) ".py" then
        ("python", "-u" :: program :: args)
      else
        (program, "-u" :: args)
  else
    match splitWs command with
    | p :: a :: rest => (p, a :: rest)
    | _ => (command, [])

/-- `AppManager.start_app`, returning the branch outcome, the updated
state, and the trace of `QProcess` effects in the order the Python code
performs them.  Note the trace order of the launch path: the spawn
request (`startProc`) comes first; the registry insert, the channel-mode
switch and the `PYTHONUNBUFFERED` environment insertion all happen
afterwards. -/
def startApp (m : AppManager) (name : String) :
    StartOutcome × AppManager × List LaunchAction :=
  match m.apps.lookup name, m.processes.contains name with
  | some s, false =>
    let pre := if s.path ≠ "" then [LaunchAction.setWorkingDirectory s.path] else []
    if s.command ≠ "" then
      let pa := computeLaunch s.command
      (.started,
       { m with processes := m.processes ++ [name] },
       pre ++ [.startProc pa.1 pa.2, .registerProcess name, .setMergedChannels,
               .setEnv "PYTHONUNBUFFERED" "1"])
    else
      (.noCommand, m, pre)
  | _, true => (.alreadyRunning, m, [])
  | none, false => (.notFound, m, [])

/-- `AppManager.stop_app`: if a registry entry exists, request graceful
termination, schedule the deferred 500 ms check, and delete the entry
*before returning*; otherwise report "not running" (`False`).  Only the
registry effect matters here: `terminate()` and the deferred
`check_process_terminated` act on the retired `QProcess` handle and never
touch `self.processes`. -/
def stopApp (m : AppManager) (name : String) : Bool × AppManager :=
  if m.processes.contains name then
    (true, { m with processes := m.processes.erase name })
  else
    (false, m)

/-- `AppManager.is_app_running`: membership in the live process map. -/
def isAppRunning (m : AppManager) (name : String) : Bool :=
  m.processes.contains name

/-! ## Schedule engine: `setup_schedules` and the monthly gate -/

/-- One constructed `schedule` job, as `setup_schedules` builds it.  An
`Interval` job keeps the value that was passed to `schedule.every(...)`;
`monthlyGate` is the `Monthly` case, which registers a *daily* job at the
configured time running `check_monthly_schedule`. -/
inductive JobSpec where
  | intervalSeconds (n : Int)
  | intervalMinutes (n : Int)
  | intervalHours (n : Int)
  | dailyAt (t : String)
  | weeklyAt (t : String)
  | monthlyGate (t : String)
  deriving Repr, DecidableEq

/-- The job-construction step of `AppManager.setup_schedules` for one
application's settings: `none` when no job is registered (schedule
disabled, or an unrecognised type/unit falls through every branch).
Note the `interval_value < 1` clamp exists only in the `"Seconds"`
branch. -/
def buildJob (s : AppSettings) : Option JobSpec :=
  if s.scheduleEnabled then
    if s.scheduleType = "Interval" then
      if s.intervalUnit = "Seconds" then
        some (.intervalSeconds (if s.intervalValue < 1 then 1 else s.intervalValue))
      else if s.intervalUnit = "Minutes" then
        some (.intervalMinutes s.intervalValue)
      else if s.intervalUnit = "Hours" then
        some (.intervalHours s.intervalValue)
      else none
    else if s.scheduleType = "Daily" then some (.dailyAt s.scheduleTime)
    else if s.scheduleType = "Weekly" then some (.weeklyAt s.scheduleTime)
    else if s.scheduleType = "Monthly" then some (.monthlyGate s.scheduleTime)
    else none
  else none

/-- `AppManager.setup_schedules`: clear all jobs, then register one job
per enabled definition (the rebuilt `self.schedules` dictionary). -/
def setupSchedules (m : AppManager) : List (String × JobSpec) :=
  m.apps.filterMap fun p => (buildJob p.2).map fun j => (p.1, j)

/-- The interval value a built `Interval` job carries (the `N` of
`schedule.every(N).seconds/minutes/hours`); `none` for calendar jobs. -/
def effectiveInterval : JobSpec → Option Int
  | .intervalSeconds n => some n
  | .intervalMinutes n => some n
  | .intervalHours n => some n
  | _ => none

/-- `AppManager.check_monthly_schedule`, abstracted over the current
day-of-month: the number of `scheduled_app_run` invocations it performs
when the daily gate fires (`1` exactly when the day-of-month is 1). -/
def checkMonthlySchedule (dayOfMonth : Nat) : Nat :=
  if dayOfMonth = 1 then 1 else 0

/-! ## Scheduled-run dispatch on the main thread -/

/-- The observable events of processing one posted scheduled-firing, in
the order they eventually happen (deferred `QTimer.singleShot`
continuations inlined at their firing point). -/
inductive RunEvent where
  /-- `_update_terminal_for_scheduled_run` (→ `onScheduledRunObserved`). -/
  | terminalUpdated (name : String)
  /-- `stop_app` issued for a running application. -/
  | stopRequested (name : String)
  /-- a `QTimer.singleShot(n, ...)` delay before the next event. -/
  | delayMs (n : Nat)
  /-- `start_app` returned `True` inside `_start_and_show_app`. -/
  | appStartedOk (name : String)
  /-- `start_app` returned `False` inside `_start_and_show_app`. -/
  | startFailed (name : String)
  /-- `_notify_app_started(name, set_focus)` (→ `onAppStarted`). -/
  | notified (name : String) (setFocus : Bool)
  deriving Repr, DecidableEq

/-- `AppManager._start_and_show_app`: run `start_app`; on success,
post `_notify_app_started(name, set_focus=False)`; on failure only log. -/
def startAndShowApp (m : AppManager) (name : String) :
    AppManager × List RunEvent :=
  let r := startApp m name
  if r.1 = .started then
    (r.2.1, [.appStartedOk name, .notified name false])
  else
    (r.2.1, [.startFailed name])

/-- `AppManager._scheduled_app_run_main_thread`: update the terminal tab,
then — if the application is running — stop it and restart it after a
fixed `QTimer.singleShot(1000, ...)` delay, otherwise start it
immediately. -/
def scheduledAppRunMainThread (m : AppManager) (name : String) :
    AppManager × List RunEvent :=
  if isAppRunning m name then
    let m1 := (stopApp m name).2
    let r := startAndShowApp m1 name
    (r.1, [RunEvent.terminalUpdated name, .stopRequested name, .delayMs 1000] ++ r.2)
  else
    let r := startAndShowApp m name
    (r.1, [RunEvent.terminalUpdated name] ++ r.2)

/-! ## Settings persistence: `load_settings` / `save_settings`

`load_settings` parses `settings.xml` into a Python dict whose values are
strings, the two booleans, the interval integer, or `None` (an element
with no text parses with `elem.text is None`).  `save_settings` writes
every dict entry back as one top-level element whose text is `str(value)`
(custom parameters included), pretty-prints and rewrites the file.

The XML file is modelled by its parsed shape: the list of children of
the root, each an element carrying its tag, its text node, and the
`name`/`value` attribute pairs of its child elements.  The loader
dispatches on the *tag*: an element whose tag is `parameters` has its
children iterated, any other element stores its text under its tag (the
model assumes the `name` attribute is present and tags are well-formed
XML names, otherwise the Python falls into its blanket `except`
handler).  Serialisation respects ElementTree/minidom behaviour: an
element whose text is the empty string is written `<k/>` and re-parses
with text `None`; non-empty text survives verbatim; saved elements are
always childless. -/

/-- A Python value stored in the settings dict: `str`, `bool`, `int` or
`None`. -/
inductive SVal where
  | str (v : String)
  | boolV (v : Bool)
  | intV (v : Int)
  | nil
  deriving Repr, DecidableEq

/-- Decimal digits of `n`, most significant first, via fuel recursion
(`fuel ≥ n` suffices since the argument drops to `n / 10`). -/
def natDigitsAux : Nat → Nat → List Char
  | 0, _ => []
  | fuel + 1, n =>
    if n = 0 then [] else natDigitsAux fuel (n / 10) ++ [Nat.digitChar (n % 10)]

/-- Decimal representation of a natural number. -/
def natDigits (n : Nat) : List Char :=
  if n = 0 then ['0'] else natDigitsAux n n

/-- Python `str(n)` for an `int`. -/
def pyIntStr (n : Int) : String :=
  if n < 0 then String.mk ('-' :: natDigits n.natAbs) else String.mk (natDigits n.toNat)

/-- Python `str(value)` on a settings value (`str(True) = "True"`,
`str(None) = "None"`). -/
def pyStr : SVal → String
  | .str v => v
  | .boolV true => "True"
  | .boolV false => "False"
  | .intV n => pyIntStr n
  | .nil => "None"

/-- Python truthiness of a settings value. -/
def truthy : SVal → Bool
  | .str v => v ≠ ""
  | .boolV b => b
  | .intV n => n ≠ 0
  | .nil => false

/-- Numeric value of a decimal digit character. -/
def charDigit (c : Char) : Nat := c.toNat - 48

/-- Parse a non-empty all-digit character run as a natural number. -/
def digitsVal (cs : List Char) : Option Nat :=
  if cs.isEmpty then none
  else if cs.all Char.isDigit then
    some (cs.foldl (fun a c => 10 * a + charDigit c) 0)
  else none

/-- Python `str.strip()` on a character list. -/
def pyTrim (cs : List Char) : List Char :=
  ((cs.dropWhile Char.isWhitespace).reverse.dropWhile Char.isWhitespace).reverse

/-- Python `int(s)` on a string: strip whitespace, optional sign, decimal
digits; `none` when `int()` would raise `ValueError`.  (Python also
accepts underscore digit separators and non-ASCII decimal digits; those
exotic spellings are outside this model and never produced by
`str(int)`.) -/
def pyInt (s : String) : Option Int :=
  match pyTrim s.toList with
  | [] => none
  | c :: rest =>
    if c = '-' then (digitsVal rest).map (fun m => -(Int.ofNat m))
    else if c = '+' then (digitsVal rest).map Int.ofNat
    else (digitsVal (c :: rest)).map Int.ofNat

/-- Python `int(value)` on a stored settings value (`int` of an `int` is
itself, of a `bool` its 0/1 coercion, of a string its parse; the `.nil`
case is unreachable behind the code's `is not None` guard). -/
def pyIntOf (v : SVal) : Int :=
  match v with
  | .intV n => n
  | .boolV b => if b then 1 else 0
  | .str t => (pyInt t).getD 60
  | .nil => 60

/-- The settings dict: insertion-ordered association list with unique
keys. -/
abbrev SettingsDict := List (String × SVal)

/-- Python dict assignment `d[k] = v`: overwrite in place, or append a
new key at the end. -/
def dictSet : SettingsDict → String → SVal → SettingsDict
  | [], k, v => [(k, v)]
  | (k', v') :: rest, k, v =>
    if k' = k then (k, v) :: rest else (k', v') :: dictSet rest k v

/-- The loader's initial `settings` dict, in source order. -/
def defaultSettings : SettingsDict :=
  [("path", .str ""), ("command", .str ""), ("url", .str ""),
   ("autorun", .boolV false), ("schedule_enabled", .boolV false),
   ("schedule_type", .str "Interval"), ("interval_value", .intV 60),
   ("interval_unit", .str "Minutes"), ("schedule_time", .str "12:00"),
   ("display_name", .str ""), ("short_name", .str ""), ("group", .str "")]

/-- One child element of the parsed XML root: its tag, its text node,
and the `(name, value)` attribute pairs of its child elements.  The
loader inspects children only when the tag is `parameters`, and then
only these two attributes; any other element contributes only its tag
and text. -/
structure XmlNode where
  tag : String
  text : Option String
  children : List (String × Option String)
  deriving Repr, DecidableEq

/-- An ordinary childless element `<tag>text</tag>`. -/
def XmlNode.el (tag : String) (text : Option String) : XmlNode :=
  ⟨tag, text, []⟩

/-- A `<parameters>` block with the given `(name, value)` children. -/
def XmlNode.paramsBlock (ps : List (String × Option String)) : XmlNode :=
  ⟨"parameters", none, ps⟩

/-- `elem.text` / `param.get("value")` as a stored value. -/
def optToVal : Option String → SVal
  | some t => .str t
  | none => .nil

/-- Processing of one root child in the `for elem in root` loop of
`load_settings`: the loop dispatches on the element's *tag* — a
`parameters` element has its children iterated (with the duplicate-URL
skip), any other element stores its text under its tag. -/
def loadNode (d : SettingsDict) (e : XmlNode) : SettingsDict :=
  if e.tag = "parameters" then
    e.children.foldl
      (fun d p =>
        if pyLower p.1 = "url" &&
            (match d.lookup "url" with
             | some v => truthy v
             | none => false) then d
        else dictSet d p.1 (optToVal p.2))
      d
  else dictSet d e.tag (optToVal e.text)

/-- The boolean-conversion pass for one of `"autorun"`,
`"schedule_enabled"`: missing or `None` becomes `False`, anything else
becomes `str(value).lower() == "true"`. -/
def boolFix (d : SettingsDict) (key : String) : SettingsDict :=
  match d.lookup key with
  | some v =>
    if v = .nil then dictSet d key (.boolV false)
    else dictSet d key (.boolV (pyLower (pyStr v) = "true"))
  | none => dictSet d key (.boolV false)

/-- The `interval_value` conversion pass: missing or `None` becomes 60,
anything else `int(value)` with 60 on `ValueError`. -/
def intervalFix (d : SettingsDict) : SettingsDict :=
  match d.lookup "interval_value" with
  | some v =>
    if v = .nil then dictSet d "interval_value" (.intV 60)
    else dictSet d "interval_value" (.intV (pyIntOf v))
  | none => dictSet d "interval_value" (.intV 60)

/-- The string-normalisation pass for one documented string key: missing
or `None` becomes `""`, anything else `str(value)`. -/
def strFix (d : SettingsDict) (key : String) : SettingsDict :=
  match d.lookup key with
  | some v =>
    if v = .nil then dictSet d key (.str "")
    else dictSet d key (.str (pyStr v))
  | none => dictSet d key (.str "")

/-- The keys of the loader's string-normalisation loop, in source
order. -/
def stringKeys : List String :=
  ["path", "command", "url", "group", "short_name", "interval_unit",
   "schedule_type", "schedule_time", "display_name"]

/-- The three conversion passes of `load_settings`, in source order: the
two boolean keys, then `interval_value`, then the string keys. -/
def convertDict (d : SettingsDict) : SettingsDict :=
  stringKeys.foldl strFix (intervalFix (boolFix (boolFix d "autorun") "schedule_enabled"))

/-- `AppManager.load_settings` on a parsed settings file: defaults, the
root-children loop, then the conversion passes. -/
def loadSettings (file : List XmlNode) : SettingsDict :=
  convertDict (file.foldl loadNode defaultSettings)

/-- The boolean the boolean-conversion pass stores for a looked-up
value. -/
def boolFixVal : Option SVal → Bool
  | some v => if v = .nil then false else pyLower (pyStr v) = "true"
  | none => false

/-- The integer the `interval_value` pass stores for a looked-up
value. -/
def intFixVal : Option SVal → Int
  | some v => if v = .nil then 60 else pyIntOf v
  | none => 60

/-- The string the string-normalisation pass stores for a looked-up
value. -/
def strFixVal : Option SVal → String
  | some v => if v = .nil then "" else pyStr v
  | none => ""

/-- `AppManager.save_settings`, composed with re-parsing the file it
wrote: every dict entry becomes one top-level *childless* element whose
tag is the key and whose text is `str(value)`; empty text serialises as
`<k/>` and re-parses as a `None` text node.  In particular an entry
whose key is literally `parameters` is written `<parameters>…</parameters>`,
which the reload's tag dispatch treats as an empty parameters block. -/
def saveFile (d : SettingsDict) : List XmlNode :=
  d.map fun p => ⟨p.1, if pyStr p.2 = "" then none else some (pyStr p.2), []⟩

/-- The value an entry re-parses to after being written by
`save_settings`. -/
def reloadVal (v : SVal) : SVal :=
  if pyStr v = "" then .nil else .str (pyStr v)

/-- Keys of a settings dict. -/
def dictKeys (d : SettingsDict) : List String := d.map Prod.fst

/-- The dict-key uniqueness invariant of a Python dict. -/
def KeysNodup (d : SettingsDict) : Prop := (dictKeys d).Nodup

/-!
## Theorems

First the claims about the process registry and the scheduler, then the
lemma stack for the settings round trip.
-/

/-- C1: with a live registry entry, `stop` reports success and removes
the entry from the live map before returning, so `is_app_running` is
false immediately afterwards (whatever the OS process is still doing),
and a second `stop` without an intervening start returns the
not-running failure (`False`) and leaves the state unchanged. -/
theorem stop_removes_entry_synchronously (m : AppManager) (name : String)
    (hnd : m.processes.Nodup) (hrun : isAppRunning m name = true) :
    (stopApp m name).1 = true ∧
    isAppRunning (stopApp m name).2 name = false ∧
    stopApp (stopApp m name).2 name = (false, (stopApp m name).2) := by
  have hmem : name ∈ m.processes := by simpa [isAppRunning] using hrun
  have hnm : name ∉ m.processes.erase name := hnd.not_mem_erase
  have h2 : (stopApp m name).2 = { m with processes := m.processes.erase name } := by
    simp [stopApp, hmem]
  refine ⟨by simp [stopApp, hmem], ?_, ?_⟩
  · rw [h2]; simp [isAppRunning, hnm]
  · rw [h2]; simp [stopApp, hnm]

/-- C1 witness: a concrete running application. -/
theorem stop_removes_entry_synchronously_witness :
    (stopApp (AppManager.mk [("Ping", { command := "ping localhost" })] ["Ping"]) "Ping").1
        = true ∧
    isAppRunning
        (stopApp (AppManager.mk [("Ping", { command := "ping localhost" })] ["Ping"]) "Ping").2
        "Ping" = false ∧
    stopApp
        (stopApp (AppManager.mk [("Ping", { command := "ping localhost" })] ["Ping"]) "Ping").2
        "Ping"
      = (false,
         (stopApp (AppManager.mk [("Ping", { command := "ping localhost" })] ["Ping"]) "Ping").2) :=
  stop_removes_entry_synchronously
    (AppManager.mk [("Ping", { command := "ping localhost" })] ["Ping"]) "Ping"
    (by decide) (by decide)

/-- C3: starting a loaded definition whose command is the empty string
never changes the registry, and (from a not-running state, the only one
reachable for an empty-command definition) the outcome is the
`NoCommand` failure. -/
theorem start_empty_command_noCommand (m : AppManager) (name : String) (s : AppSettings)
    (happ : m.apps.lookup name = some s) (hcmd : s.command = "") :
    (startApp m name).2.1.processes = m.processes ∧
    (m.processes.contains name = false → (startApp m name).1 = .noCommand) := by
  by_cases hmem : name ∈ m.processes
  · refine ⟨by simp [startApp, happ, hmem], ?_⟩
    intro h
    simp [hmem] at h
  · exact ⟨by simp [startApp, happ, hmem, hcmd],
      fun _ => by simp [startApp, happ, hmem, hcmd]⟩

/-- C3 witness: a concrete empty-command definition. -/
theorem start_empty_command_noCommand_witness :
    (startApp (AppManager.mk [("App", { command := "" })] []) "App").2.1.processes = [] ∧
    (startApp (AppManager.mk [("App", { command := "" })] []) "App").1 = .noCommand := by
  have h := start_empty_command_noCommand (AppManager.mk [("App", { command := "" })] [])
    "App" { command := "" } (by decide) rfl
  exact ⟨h.1, h.2 rfl⟩

/-- C4: from a not-running state, the first `start` of a non-empty
command succeeds, an immediate second `start` fails with
`AlreadyRunning` and leaves the state untouched, and the registry holds
exactly one entry for the name after both calls. -/
theorem start_twice_alreadyRunning (m : AppManager) (name : String) (s : AppSettings)
    (happ : m.apps.lookup name = some s) (hcmd : s.command ≠ "")
    (hproc : m.processes.contains name = false) :
    (startApp m name).1 = .started ∧
    (startApp (startApp m name).2.1 name).1 = .alreadyRunning ∧
    (startApp (startApp m name).2.1 name).2.1 = (startApp m name).2.1 ∧
    (startApp m name).2.1.processes.count name = 1 := by
  have hmem : name ∉ m.processes := by simpa using hproc
  have h1 : (startApp m name).2.1 = { m with processes := m.processes ++ [name] } := by
    simp [startApp, happ, hmem, hcmd]
  have hmem2 : name ∈ m.processes ++ [name] := by simp
  refine ⟨by simp [startApp, happ, hmem, hcmd], ?_, ?_, ?_⟩
  · rw [h1]; simp [startApp, hmem2]
  · rw [h1]; simp [startApp, hmem2]
  · rw [h1]
    simp [List.count_append, List.count_eq_zero.mpr hmem]

/-- C4 witness: a concrete runnable definition started twice. -/
theorem start_twice_alreadyRunning_witness :
    (startApp (AppManager.mk [("Ping", { command := "ping localhost" })] []) "Ping").1
        = .started ∧
    (startApp
        (startApp (AppManager.mk [("Ping", { command := "ping localhost" })] []) "Ping").2.1
        "Ping").1 = .alreadyRunning ∧
    (startApp (AppManager.mk [("Ping", { command := "ping localhost" })] []) "Ping").2.1.processes.count
        "Ping" = 1 := by
  have h := start_twice_alreadyRunning
    (AppManager.mk [("Ping", { command := "ping localhost" })] []) "Ping"
    { command := "ping localhost" } (by decide) (by decide) (by decide)
  exact ⟨h.1, h.2.1, h.2.2.2⟩

/-- C10: starting a name with no loaded definition (and no stale
registry entry) fails with the distinct not-found outcome — a fourth
case outside the spec's `NoCommand`/`AlreadyRunning`/`LaunchFailed`
taxonomy — and leaves the whole manager state unchanged. -/
theorem start_unknown_name_rejected (m : AppManager) (name : String)
    (happ : m.apps.lookup name = none) (hproc : m.processes.contains name = false) :
    startApp m name = (.notFound, m, []) ∧
    (StartOutcome.notFound ≠ .noCommand ∧ StartOutcome.notFound ≠ .alreadyRunning ∧
     StartOutcome.notFound ≠ .started) := by
  have hmem : name ∉ m.processes := by simpa using hproc
  exact ⟨by simp [startApp, happ, hmem], by decide⟩

/-- C10 witness: a name absent from a concrete manager. -/
theorem start_unknown_name_rejected_witness :
    startApp (AppManager.mk [("Ping", { command := "ping localhost" })] []) "Ghost"
      = (.notFound, AppManager.mk [("Ping", { command := "ping localhost" })] [], []) :=
  (start_unknown_name_rejected
    (AppManager.mk [("Ping", { command := "ping localhost" })] []) "Ghost"
    (by decide) (by decide)).1

/-- C2 counterexample: the claim requires that when the OS refuses to
spawn a non-empty command, `start` reports `LaunchFailed` and leaves the
registry untouched.  But `start_app` computes its return value and its
registry insert before and independently of any spawn outcome
(`QProcess.start` is asynchronous and no error signal is consulted), so
there is no `LaunchFailed` outcome at all: on a command no OS could
spawn, the result is the success outcome and the registry has gained an
entry by the time `start` returns. -/
theorem start_spawn_refusal_reports_success :
    (startApp (AppManager.mk [("App", { command := "this-binary-does-not-exist" })] [])
        "App").1 = .started ∧
    (startApp (AppManager.mk [("App", { command := "this-binary-does-not-exist" })] [])
        "App").2.1.processes = ["App"] := by decide

/-- C2 amended: `start` returns success or one of the three failures
`NoCommand`, `AlreadyRunning`, `NotFound`; a spawn refusal is never
detected or reported — for a loaded, not-running definition with a
non-empty command, `start` reports success and appends a registry entry
unconditionally, whatever the OS later does with the spawn request. -/
theorem start_outcome_taxonomy (m : AppManager) (name : String) :
    ((startApp m name).1 = .started ∨ (startApp m name).1 = .noCommand ∨
      (startApp m name).1 = .alreadyRunning ∨ (startApp m name).1 = .notFound) ∧
    (∀ s, m.apps.lookup name = some s → name ∉ m.processes → s.command ≠ "" →
      (startApp m name).1 = .started ∧
      (startApp m name).2.1.processes = m.processes ++ [name]) := by
  constructor
  · cases h : (startApp m name).1 <;> simp
  · intro s happ hmem hcmd
    exact ⟨by simp [startApp, happ, hmem, hcmd], by simp [startApp, happ, hmem, hcmd]⟩

/-- C2 witness: a concrete runnable definition. -/
theorem start_outcome_taxonomy_witness :
    (startApp (AppManager.mk [("App", { command := "prog arg" })] []) "App").1 = .started ∧
    (startApp (AppManager.mk [("App", { command := "prog arg" })] []) "App").2.1.processes
      = ["App"] := by
  have h := (start_outcome_taxonomy (AppManager.mk [("App", { command := "prog arg" })] [])
      "App").2 { command := "prog arg" } (by decide) (by decide) (by decide)
  exact ⟨h.1, by simpa using h.2⟩

/-- C5 counterexample: an enabled Interval schedule with unit Minutes
and value 0 builds a job whose effective interval value is 0, not 1 —
the below-1 clamp is absent outside the Seconds unit. -/
theorem interval_minutes_not_clamped :
    buildJob { scheduleEnabled := true, scheduleType := "Interval",
               intervalValue := 0, intervalUnit := "Minutes" }
      = some (.intervalMinutes 0) ∧
    effectiveInterval (.intervalMinutes 0) = some 0 ∧ ¬ (1 ≤ (0 : Int)) := by decide

/-- C5 amended: only the Seconds unit clamps an interval value below 1
up to 1 (leaving values ≥ 1 unchanged); Minutes and Hours jobs carry the
configured value through unchanged, even when it is below 1. -/
theorem interval_clamp_only_for_seconds (s : AppSettings)
    (hen : s.scheduleEnabled = true) (hty : s.scheduleType = "Interval") :
    (s.intervalUnit = "Seconds" →
      ∃ n, buildJob s = some (.intervalSeconds n) ∧ 1 ≤ n ∧
        (1 ≤ s.intervalValue → n = s.intervalValue)) ∧
    (s.intervalUnit = "Minutes" → buildJob s = some (.intervalMinutes s.intervalValue)) ∧
    (s.intervalUnit = "Hours" → buildJob s = some (.intervalHours s.intervalValue)) := by
  refine ⟨fun hu => ?_, fun hu => ?_, fun hu => ?_⟩
  · refine ⟨if s.intervalValue < 1 then 1 else s.intervalValue,
      by simp [buildJob, hen, hty, hu], ?_, ?_⟩
    · split <;> omega
    · intro h; split <;> omega
  · simp [buildJob, hen, hty, hu]
  · simp [buildJob, hen, hty, hu]

/-- C5 witness: a Seconds-unit schedule with value 0 is clamped to 1. -/
theorem interval_clamp_only_for_seconds_witness :
    ∃ n, buildJob { scheduleEnabled := true, scheduleType := "Interval",
                    intervalValue := 0, intervalUnit := "Seconds" }
        = some (.intervalSeconds n) ∧ 1 ≤ n ∧
        (1 ≤ (0 : Int) → n = 0) := by
  have h := (interval_clamp_only_for_seconds
    { scheduleEnabled := true, scheduleType := "Interval",
      intervalValue := 0, intervalUnit := "Seconds" } rfl rfl).1 rfl
  exact h

/-- C6: an enabled Monthly schedule is built as a daily gate at the
configured time running `check_monthly_schedule`, and that gate triggers
no scheduled run when the day-of-month is not 1 (e.g. 15) and exactly
one run when it is 1. -/
theorem monthly_gate_fires_only_on_day_one (s : AppSettings)
    (hen : s.scheduleEnabled = true) (hty : s.scheduleType = "Monthly") :
    buildJob s = some (.monthlyGate s.scheduleTime) ∧
    checkMonthlySchedule 15 = 0 ∧ checkMonthlySchedule 1 = 1 ∧
    (∀ d, d ≠ 1 → checkMonthlySchedule d = 0) := by
  refine ⟨by simp [buildJob, hen, hty], by decide, by decide, fun d hd => ?_⟩
  simp [checkMonthlySchedule, hd]

/-- C6 witness: the claim's "09:00" Monthly schedule. -/
theorem monthly_gate_fires_only_on_day_one_witness :
    buildJob { scheduleEnabled := true, scheduleType := "Monthly", scheduleTime := "09:00" }
      = some (.monthlyGate "09:00") ∧
    checkMonthlySchedule 15 = 0 ∧ checkMonthlySchedule 1 = 1 := by
  have h := monthly_gate_fires_only_on_day_one
    { scheduleEnabled := true, scheduleType := "Monthly", scheduleTime := "09:00" } rfl rfl
  exact ⟨h.1, h.2.1, h.2.2.1⟩

/-- C7 counterexample: the claim says the Notification Sink is notified
in either path of a processed scheduled firing; but when the start fails
(here: an empty command, not running), no `_notify_app_started` is ever
posted — notification happens only behind a successful `start_app`. -/
theorem scheduled_run_failed_start_no_notification :
    (scheduledAppRunMainThread (AppManager.mk [("App", { command := "" })] []) "App").2
      = [.terminalUpdated "App", .startFailed "App"] ∧
    RunEvent.notified "App" false ∉
      (scheduledAppRunMainThread (AppManager.mk [("App", { command := "" })] []) "App").2 := by
  decide

/-- C7 amended: for a loaded definition with a non-empty command (so the
start succeeds), a processed scheduled firing stops a running
application and starts it again only after the fixed 1000 ms deferred
delay, or starts a stopped application immediately; in both paths the
sink is notified with the application name and `set_focus = False`.
When the start fails no notification is emitted (counterexample). -/
theorem scheduled_run_restart_and_notify (m : AppManager) (name : String) (s : AppSettings)
    (happ : m.apps.lookup name = some s) (hcmd : s.command ≠ "")
    (hnd : m.processes.Nodup) :
    (isAppRunning m name = true →
      (scheduledAppRunMainThread m name).2 =
        [.terminalUpdated name, .stopRequested name, .delayMs 1000,
         .appStartedOk name, .notified name false]) ∧
    (isAppRunning m name = false →
      (scheduledAppRunMainThread m name).2 =
        [.terminalUpdated name, .appStartedOk name, .notified name false]) := by
  constructor <;> intro hrun
  · have hmem : name ∈ m.processes := by simpa [isAppRunning] using hrun
    have hne : name ∉ m.processes.erase name := hnd.not_mem_erase
    have hstop : (stopApp m name).2 = { m with processes := m.processes.erase name } := by
      simp [stopApp, hmem]
    simp [scheduledAppRunMainThread, isAppRunning, hmem, hstop,
      startAndShowApp, startApp, happ, hne, hcmd]
  · have hmem : name ∉ m.processes := by simpa [isAppRunning] using hrun
    simp [scheduledAppRunMainThread, isAppRunning, hmem,
      startAndShowApp, startApp, happ, hcmd]

/-- C7 witness: a concrete running application whose schedule fires. -/
theorem scheduled_run_restart_and_notify_witness :
    (scheduledAppRunMainThread
        (AppManager.mk [("Ping", { command := "ping localhost" })] ["Ping"]) "Ping").2 =
      [.terminalUpdated "Ping", .stopRequested "Ping", .delayMs 1000,
       .appStartedOk "Ping", .notified "Ping" false] :=
  (scheduled_run_restart_and_notify
    (AppManager.mk [("Ping", { command := "ping localhost" })] ["Ping"]) "Ping"
    { command := "ping localhost" } (by decide) (by decide) (by decide)).1 (by decide)

/-- C9 (code bug): on the recognised interpreter command
`python script.py` the argument-vector rewrite does inject the `-u`
unbuffered flag, but the `PYTHONUNBUFFERED` environment insertion is
performed *after* `QProcess.start` in the effect trace — the code's own
comment says the variable is set "to ensure Python doesn't buffer
output", yet an environment assigned after the spawn request is not
seen by the launched process, contradicting the claim that the variable
is set on the process at the moment it is launched.  (A second slip in
the same branch: the guard `"-u" not in command` is a substring test, so
a command such as `python my-util.py` gets no `-u` flag at all.) -/
theorem unbuffered_env_set_after_spawn :
    (startApp (AppManager.mk [("App", { command := "python script.py" })] []) "App").2.2 =
      [.startProc "python" ["-u", "script.py"], .registerProcess "App",
       .setMergedChannels, .setEnv "PYTHONUNBUFFERED" "1"] := by decide

/-! ### Dictionary lemmas for the settings round trip -/

lemma lookup_cons_self (k : String) (v : SVal) (rest : SettingsDict) :
    List.lookup k ((k, v) :: rest) = some v := by
  simp [List.lookup]

lemma lookup_cons_ne (k k' : String) (v : SVal) (rest : SettingsDict) (h : k ≠ k') :
    List.lookup k ((k', v) :: rest) = List.lookup k rest := by
  simp [List.lookup, beq_false_of_ne h]

lemma lookup_dictSet_self (d : SettingsDict) (k : String) (v : SVal) :
    (dictSet d k v).lookup k = some v := by
  induction d with
  | nil => simp [dictSet]
  | cons p rest ih =>
    obtain ⟨k', v'⟩ := p
    by_cases h : k' = k
    · simp [dictSet, h]
    · rw [show dictSet ((k', v') :: rest) k v = (k', v') :: dictSet rest k v from by
        simp [dictSet, h]]
      rw [lookup_cons_ne _ _ _ _ (Ne.symm h), ih]

lemma lookup_dictSet_ne (d : SettingsDict) (k k' : String) (v : SVal) (h : k' ≠ k) :
    (dictSet d k v).lookup k' = d.lookup k' := by
  induction d with
  | nil => simp [dictSet, h]
  | cons p rest ih =>
    obtain ⟨k0, v0⟩ := p
    by_cases h0 : k0 = k
    · subst h0
      rw [show dictSet ((k0, v0) :: rest) k0 v = (k0, v) :: rest from by simp [dictSet]]
      rw [lookup_cons_ne _ _ _ _ h, lookup_cons_ne _ _ _ _ h]
    · rw [show dictSet ((k0, v0) :: rest) k v = (k0, v0) :: dictSet rest k v from by
        simp [dictSet, h0]]
      by_cases h1 : k' = k0
      · subst h1
        rw [lookup_cons_self, lookup_cons_self]
      · rw [lookup_cons_ne _ _ _ _ h1, lookup_cons_ne _ _ _ _ h1, ih]

lemma mem_dictKeys_dictSet (d : SettingsDict) (k : String) (v : SVal) (x : String) :
    x ∈ dictKeys (dictSet d k v) ↔ x ∈ dictKeys d ∨ x = k := by
  induction d with
  | nil => simp [dictSet, dictKeys]
  | cons p rest ih =>
    obtain ⟨k0, v0⟩ := p
    by_cases h0 : k0 = k
    · subst h0
      simp [dictSet, dictKeys]
      tauto
    · simp [dictSet, dictKeys, h0] at ih ⊢
      tauto

lemma keysNodup_dictSet (d : SettingsDict) (k : String) (v : SVal)
    (h : KeysNodup d) : KeysNodup (dictSet d k v) := by
  induction d with
  | nil => simp [dictSet, KeysNodup, dictKeys]
  | cons p rest ih =>
    obtain ⟨k0, v0⟩ := p
    simp only [KeysNodup, dictKeys, List.map_cons, List.nodup_cons] at h
    by_cases h0 : k0 = k
    · subst h0
      simpa [dictSet, KeysNodup, dictKeys] using h
    · have h2 := ih h.2
      simp only [dictSet, h0, if_false, KeysNodup, dictKeys, List.map_cons,
        List.nodup_cons]
      refine ⟨?_, h2⟩
      intro hc
      rcases (mem_dictKeys_dictSet rest k v k0).1 hc with hc' | hc'
      · exact h.1 hc'
      · exact h0 hc'

lemma lookup_eq_none_of_not_mem (d : SettingsDict) (k : String)
    (h : k ∉ dictKeys d) : d.lookup k = none := by
  induction d with
  | nil => simp
  | cons p rest ih =>
    obtain ⟨k0, v0⟩ := p
    simp only [dictKeys, List.map_cons, List.mem_cons, not_or] at h
    rw [lookup_cons_ne _ _ _ _ h.1, ih (by simpa [dictKeys] using h.2)]

lemma keysNodup_foldl_param (ps : List (String × Option String))
    (d : SettingsDict) (h : KeysNodup d) :
    KeysNodup (ps.foldl
      (fun d p =>
        if pyLower p.1 = "url" &&
            (match d.lookup "url" with
             | some v => truthy v
             | none => false) then d
        else dictSet d p.1 (optToVal p.2))
      d) := by
  induction ps generalizing d with
  | nil => exact h
  | cons p rest ih =>
    simp only [List.foldl_cons]
    apply ih
    split
    · exact h
    · exact keysNodup_dictSet _ _ _ h

lemma keysNodup_loadNode (e : XmlNode) (d : SettingsDict)
    (h : KeysNodup d) : KeysNodup (loadNode d e) := by
  unfold loadNode
  by_cases ht : e.tag = "parameters"
  · rw [if_pos ht]
    exact keysNodup_foldl_param e.children d h
  · rw [if_neg ht]
    exact keysNodup_dictSet _ _ _ h

lemma keysNodup_foldl_loadNode (file : List XmlNode) (d : SettingsDict)
    (h : KeysNodup d) : KeysNodup (file.foldl loadNode d) := by
  induction file generalizing d with
  | nil => exact h
  | cons n rest ih => exact ih _ (keysNodup_loadNode n d h)

lemma keysNodup_boolFix (d : SettingsDict) (key : String) (h : KeysNodup d) :
    KeysNodup (boolFix d key) := by
  rcases hl : d.lookup key with _ | v
  · simp only [boolFix, hl]
    exact keysNodup_dictSet _ _ _ h
  · simp only [boolFix, hl]
    split
    · exact keysNodup_dictSet _ _ _ h
    · exact keysNodup_dictSet _ _ _ h

lemma keysNodup_intervalFix (d : SettingsDict) (h : KeysNodup d) :
    KeysNodup (intervalFix d) := by
  rcases hl : d.lookup "interval_value" with _ | v
  · simp only [intervalFix, hl]
    exact keysNodup_dictSet _ _ _ h
  · simp only [intervalFix, hl]
    split
    · exact keysNodup_dictSet _ _ _ h
    · exact keysNodup_dictSet _ _ _ h

lemma keysNodup_strFix (d : SettingsDict) (key : String) (h : KeysNodup d) :
    KeysNodup (strFix d key) := by
  rcases hl : d.lookup key with _ | v
  · simp only [strFix, hl]
    exact keysNodup_dictSet _ _ _ h
  · simp only [strFix, hl]
    split
    · exact keysNodup_dictSet _ _ _ h
    · exact keysNodup_dictSet _ _ _ h

lemma keysNodup_foldl_strFix (ks : List String) (d : SettingsDict)
    (h : KeysNodup d) : KeysNodup (ks.foldl strFix d) := by
  induction ks generalizing d with
  | nil => exact h
  | cons key rest ih => exact ih _ (keysNodup_strFix d key h)

lemma keysNodup_loadSettings (f : List XmlNode) : KeysNodup (loadSettings f) := by
  unfold loadSettings convertDict
  exact keysNodup_foldl_strFix _ _
    (keysNodup_intervalFix _
      (keysNodup_boolFix _ _
        (keysNodup_boolFix _ _
          (keysNodup_foldl_loadNode f defaultSettings
            (show (dictKeys defaultSettings).Nodup by decide)))))

/-! ### Lookup through the conversion passes -/

lemma lookup_boolFix_self (d : SettingsDict) (key : String) :
    (boolFix d key).lookup key = some (.boolV (boolFixVal (d.lookup key))) := by
  rcases hl : d.lookup key with _ | v
  · simp only [boolFix, hl, boolFixVal]
    exact lookup_dictSet_self _ _ _
  · by_cases hv : v = .nil
    · simp only [boolFix, hl, hv, if_pos, boolFixVal, if_true]
      exact lookup_dictSet_self _ _ _
    · simp only [boolFix, hl, if_neg hv, boolFixVal]
      exact lookup_dictSet_self _ _ _

lemma lookup_boolFix_ne (d : SettingsDict) (key k : String) (h : k ≠ key) :
    (boolFix d key).lookup k = d.lookup k := by
  rcases hl : d.lookup key with _ | v
  · simp only [boolFix, hl]
    exact lookup_dictSet_ne _ _ _ _ h
  · simp only [boolFix, hl]
    split
    · exact lookup_dictSet_ne _ _ _ _ h
    · exact lookup_dictSet_ne _ _ _ _ h

lemma lookup_intervalFix_self (d : SettingsDict) :
    (intervalFix d).lookup "interval_value"
      = some (.intV (intFixVal (d.lookup "interval_value"))) := by
  rcases hl : d.lookup "interval_value" with _ | v
  · simp only [intervalFix, hl, intFixVal]
    exact lookup_dictSet_self _ _ _
  · by_cases hv : v = .nil
    · simp only [intervalFix, hl, hv, if_pos, intFixVal, if_true]
      exact lookup_dictSet_self _ _ _
    · simp only [intervalFix, hl, if_neg hv, intFixVal]
      exact lookup_dictSet_self _ _ _

lemma lookup_intervalFix_ne (d : SettingsDict) (k : String)
    (h : k ≠ "interval_value") :
    (intervalFix d).lookup k = d.lookup k := by
  rcases hl : d.lookup "interval_value" with _ | v
  · simp only [intervalFix, hl]
    exact lookup_dictSet_ne _ _ _ _ h
  · simp only [intervalFix, hl]
    split
    · exact lookup_dictSet_ne _ _ _ _ h
    · exact lookup_dictSet_ne _ _ _ _ h

lemma lookup_strFix_self (d : SettingsDict) (key : String) :
    (strFix d key).lookup key = some (.str (strFixVal (d.lookup key))) := by
  rcases hl : d.lookup key with _ | v
  · simp only [strFix, hl, strFixVal]
    exact lookup_dictSet_self _ _ _
  · by_cases hv : v = .nil
    · simp only [strFix, hl, hv, if_pos, strFixVal, if_true]
      exact lookup_dictSet_self _ _ _
    · simp only [strFix, hl, if_neg hv, strFixVal]
      exact lookup_dictSet_self _ _ _

lemma lookup_strFix_ne (d : SettingsDict) (key k : String) (h : k ≠ key) :
    (strFix d key).lookup k = d.lookup k := by
  rcases hl : d.lookup key with _ | v
  · simp only [strFix, hl]
    exact lookup_dictSet_ne _ _ _ _ h
  · simp only [strFix, hl]
    split
    · exact lookup_dictSet_ne _ _ _ _ h
    · exact lookup_dictSet_ne _ _ _ _ h

lemma lookup_foldl_strFix (ks : List String) (d : SettingsDict) (k : String)
    (hnd : ks.Nodup) :
    (ks.foldl strFix d).lookup k =
      if k ∈ ks then some (.str (strFixVal (d.lookup k))) else d.lookup k := by
  induction ks generalizing d with
  | nil => simp
  | cons key rest ih =>
    have hnd' := (List.nodup_cons.1 hnd)
    simp only [List.foldl_cons]
    by_cases hk : k = key
    · subst hk
      rw [ih _ hnd'.2]
      simp [hnd'.1, lookup_strFix_self]
    · rw [ih _ hnd'.2, lookup_strFix_ne _ _ _ hk]
      simp [hk]

lemma lookup_convert_autorun (d : SettingsDict) :
    (convertDict d).lookup "autorun" = some (.boolV (boolFixVal (d.lookup "autorun"))) := by
  unfold convertDict
  rw [lookup_foldl_strFix _ _ _ (by decide), if_neg (by decide),
    lookup_intervalFix_ne _ _ (by decide), lookup_boolFix_ne _ _ _ (by decide)]
  exact lookup_boolFix_self _ _

lemma lookup_convert_schedule_enabled (d : SettingsDict) :
    (convertDict d).lookup "schedule_enabled"
      = some (.boolV (boolFixVal (d.lookup "schedule_enabled"))) := by
  unfold convertDict
  rw [lookup_foldl_strFix _ _ _ (by decide), if_neg (by decide),
    lookup_intervalFix_ne _ _ (by decide), lookup_boolFix_self,
    lookup_boolFix_ne _ _ _ (by decide)]

lemma lookup_convert_interval (d : SettingsDict) :
    (convertDict d).lookup "interval_value"
      = some (.intV (intFixVal (d.lookup "interval_value"))) := by
  unfold convertDict
  rw [lookup_foldl_strFix _ _ _ (by decide), if_neg (by decide),
    lookup_intervalFix_self, lookup_boolFix_ne _ _ _ (by decide),
    lookup_boolFix_ne _ _ _ (by decide)]

lemma lookup_convert_stringKey (d : SettingsDict) (k : String) (hk : k ∈ stringKeys) :
    (convertDict d).lookup k = some (.str (strFixVal (d.lookup k))) := by
  have h1 : k ≠ "autorun" := by rintro rfl; exact absurd hk (by decide)
  have h2 : k ≠ "schedule_enabled" := by rintro rfl; exact absurd hk (by decide)
  have h3 : k ≠ "interval_value" := by rintro rfl; exact absurd hk (by decide)
  unfold convertDict
  rw [lookup_foldl_strFix _ _ _ (by decide), if_pos hk,
    lookup_intervalFix_ne _ _ h3, lookup_boolFix_ne _ _ _ h2,
    lookup_boolFix_ne _ _ _ h1]

lemma lookup_convert_other (d : SettingsDict) (k : String)
    (h0 : k ∉ stringKeys) (h1 : k ≠ "autorun") (h2 : k ≠ "schedule_enabled")
    (h3 : k ≠ "interval_value") :
    (convertDict d).lookup k = d.lookup k := by
  unfold convertDict
  rw [lookup_foldl_strFix _ _ _ (by decide), if_neg h0,
    lookup_intervalFix_ne _ _ h3, lookup_boolFix_ne _ _ _ h2,
    lookup_boolFix_ne _ _ _ h1]

/-! ### Reloading a saved dict -/

lemma lookup_load_saveFile : ∀ (l : SettingsDict) (acc : SettingsDict) (k : String),
    KeysNodup l → k ≠ "parameters" →
    ((saveFile l).foldl loadNode acc).lookup k =
      (match l.lookup k with
       | some v => some (reloadVal v)
       | none => acc.lookup k) := by
  intro l
  induction l with
  | nil => intro acc k _ _; simp [saveFile]
  | cons p rest ih =>
    intro acc k hnd hkp
    obtain ⟨k0, v0⟩ := p
    rw [KeysNodup, dictKeys, List.map_cons, List.nodup_cons] at hnd
    have hnd1 : KeysNodup rest := hnd.2
    have hnd2 : k0 ∉ dictKeys rest := hnd.1
    rw [show saveFile ((k0, v0) :: rest)
        = (⟨k0, if pyStr v0 = "" then none else some (pyStr v0), []⟩ : XmlNode)
            :: saveFile rest
      from rfl]
    rw [List.foldl_cons]
    by_cases hp : k0 = "parameters"
    · -- the saved entry re-parses as a childless parameters block and is dropped
      have hstep : loadNode acc ⟨k0, if pyStr v0 = "" then none else some (pyStr v0), []⟩
          = acc := by
        simp [loadNode, hp]
      rw [hstep]
      have hk0 : k ≠ k0 := by rw [hp]; exact hkp
      rw [lookup_cons_ne _ _ _ _ hk0, ih _ _ hnd1 hkp]
    · have hstep : loadNode acc ⟨k0, if pyStr v0 = "" then none else some (pyStr v0), []⟩
          = dictSet acc k0 (reloadVal v0) := by
        by_cases h : pyStr v0 = "" <;> simp [loadNode, hp, h, optToVal, reloadVal]
      rw [hstep]
      by_cases hk : k = k0
      · subst hk
        rw [lookup_cons_self, ih _ _ hnd1 hkp, lookup_eq_none_of_not_mem rest k hnd2]
        simp [lookup_dictSet_self]
      · rw [lookup_cons_ne _ _ _ _ hk, ih _ _ hnd1 hkp]
        cases hr : rest.lookup k with
        | some v => simp
        | none => simp [lookup_dictSet_ne _ _ _ _ hk]

/-! ### Decimal digits: `str(int)` parses back with `int(str)` -/

lemma charDigit_digitChar (d : Nat) (h : d < 10) :
    charDigit (Nat.digitChar d) = d := by
  interval_cases d <;> rfl

lemma isDigit_digitChar (d : Nat) (h : d < 10) :
    (Nat.digitChar d).isDigit = true := by
  interval_cases d <;> decide

lemma not_ws_digitChar (d : Nat) (h : d < 10) :
    (Nat.digitChar d).isWhitespace = false := by
  interval_cases d <;> decide

lemma natDigitsAux_all_digits :
    ∀ fuel n : Nat, (natDigitsAux fuel n).all Char.isDigit = true := by
  intro fuel
  induction fuel with
  | zero => intro n; rfl
  | succ f ih =>
    intro n
    by_cases h : n = 0
    · simp [natDigitsAux, h]
    · simp only [natDigitsAux, h, if_neg, not_false_iff, List.all_append, List.all_cons,
        List.all_nil, ih, Bool.and_true, Bool.true_and]
      exact isDigit_digitChar _ (Nat.mod_lt _ (by norm_num))

lemma natDigitsAux_not_ws :
    ∀ fuel n : Nat, (natDigitsAux fuel n).all (fun c => !c.isWhitespace) = true := by
  intro fuel
  induction fuel with
  | zero => intro n; rfl
  | succ f ih =>
    intro n
    by_cases h : n = 0
    · simp [natDigitsAux, h]
    · simp only [natDigitsAux, h, if_neg, not_false_iff, List.all_append, List.all_cons,
        List.all_nil, ih, Bool.and_true, Bool.true_and]
      simp [not_ws_digitChar _ (Nat.mod_lt _ (by norm_num))]

lemma natDigitsAux_ne_nil (fuel n : Nat) (h0 : n ≠ 0) (h : n ≤ fuel) :
    natDigitsAux fuel n ≠ [] := by
  cases fuel with
  | zero => omega
  | succ f => simp [natDigitsAux, h0]

lemma natDigitsAux_foldl :
    ∀ (fuel n a : Nat), n ≤ fuel →
      (natDigitsAux fuel n).foldl (fun acc c => 10 * acc + charDigit c) a
        = a * 10 ^ (natDigitsAux fuel n).length + n := by
  intro fuel
  induction fuel with
  | zero =>
    intro n a h
    have : n = 0 := by omega
    subst this
    simp [natDigitsAux]
  | succ f ih =>
    intro n a h
    by_cases h0 : n = 0
    · simp [natDigitsAux, h0]
    · have hdiv : n / 10 ≤ f := by
        have : n / 10 < n := Nat.div_lt_self (by omega) (by norm_num)
        omega
      simp only [natDigitsAux, h0, if_neg, not_false_iff, List.foldl_append,
        List.foldl_cons, List.foldl_nil, List.length_append, List.length_cons,
        List.length_nil]
      rw [ih (n / 10) a hdiv, charDigit_digitChar _ (Nat.mod_lt _ (by norm_num))]
      have hsplit : 10 * (a * 10 ^ (natDigitsAux f (n / 10)).length + n / 10) + n % 10
          = 10 * (a * 10 ^ (natDigitsAux f (n / 10)).length) + (10 * (n / 10) + n % 10) := by
        ring
      rw [hsplit, Nat.div_add_mod, pow_succ]
      ring

lemma natDigits_all_digits (n : Nat) : (natDigits n).all Char.isDigit = true := by
  unfold natDigits
  by_cases h : n = 0 <;> simp [h, natDigitsAux_all_digits]

lemma natDigits_not_ws (n : Nat) :
    (natDigits n).all (fun c => !c.isWhitespace) = true := by
  unfold natDigits
  by_cases h : n = 0 <;> simp [h, natDigitsAux_not_ws]

lemma natDigits_ne_nil (n : Nat) : natDigits n ≠ [] := by
  unfold natDigits
  by_cases h : n = 0
  · simp [h]
  · simp only [h, if_neg, not_false_iff]
    exact natDigitsAux_ne_nil n n h (le_refl n)

lemma digitsVal_natDigits (n : Nat) : digitsVal (natDigits n) = some n := by
  by_cases h : n = 0
  · subst h; rfl
  · unfold natDigits
    rw [if_neg h]
    unfold digitsVal
    rw [if_neg (by simp [List.isEmpty_iff, natDigitsAux_ne_nil n n h (le_refl n)])]
    rw [if_pos (natDigitsAux_all_digits n n)]
    rw [natDigitsAux_foldl n n 0 (le_refl n)]
    simp

lemma pyTrim_eq_self (cs : List Char)
    (h : cs.all (fun c => !c.isWhitespace) = true) : pyTrim cs = cs := by
  have hdrop : ∀ l : List Char, l.all (fun c => !c.isWhitespace) = true →
      l.dropWhile Char.isWhitespace = l := by
    intro l hl
    cases l with
    | nil => rfl
    | cons c rest =>
      have hc : c.isWhitespace = false := by
        simp only [List.all_cons, Bool.and_eq_true, Bool.not_eq_true'] at hl
        exact hl.1
      simp [List.dropWhile_cons, hc]
  have hrev : cs.reverse.all (fun c => !c.isWhitespace) = true := by
    simp only [List.all_eq_true] at h ⊢
    intro c hc
    exact h c (List.mem_reverse.1 hc)
  unfold pyTrim
  rw [hdrop cs h, hdrop cs.reverse hrev, List.reverse_reverse]

lemma digit_ne_sign (c : Char) (h : c.isDigit = true) : c ≠ '-' ∧ c ≠ '+' := by
  constructor <;> rintro rfl <;> exact absurd h (by decide)

lemma pyInt_pyIntStr (n : Int) : pyInt (pyIntStr n) = some n := by
  unfold pyIntStr
  by_cases h : n < 0
  · rw [if_pos h]
    unfold pyInt
    rw [show (String.mk ('-' :: natDigits n.natAbs)).toList = '-' :: natDigits n.natAbs
      from rfl]
    rw [pyTrim_eq_self _ (by
      simp only [List.all_cons, Bool.and_eq_true]
      exact ⟨by decide, natDigits_not_ws _⟩)]
    show (if ('-' : Char) = '-' then (digitsVal (natDigits n.natAbs)).map (fun m => -(Int.ofNat m))
      else _) = some n
    rw [if_pos rfl, digitsVal_natDigits]
    simp only [Option.map_some', Option.some.injEq, Int.ofNat_eq_natCast]
    omega
  · rw [if_neg h]
    unfold pyInt
    rw [show (String.mk (natDigits n.toNat)).toList = natDigits n.toNat from rfl]
    rw [pyTrim_eq_self _ (natDigits_not_ws _)]
    obtain ⟨c, rest, hcr⟩ : ∃ c rest, natDigits n.toNat = c :: rest := by
      cases hnd : natDigits n.toNat with
      | nil => exact absurd hnd (natDigits_ne_nil _)
      | cons c rest => exact ⟨c, rest, rfl⟩
    have hdig : c.isDigit = true := by
      have hall := natDigits_all_digits n.toNat
      rw [hcr] at hall
      simp only [List.all_cons, Bool.and_eq_true] at hall
      exact hall.1
    have hsign := digit_ne_sign c hdig
    rw [hcr]
    show (if c = '-' then _ else if c = '+' then _
      else (digitsVal (c :: rest)).map Int.ofNat) = some n
    rw [if_neg hsign.1, if_neg hsign.2, ← hcr, digitsVal_natDigits]
    simp only [Option.map_some', Option.some.injEq, Int.ofNat_eq_natCast]
    omega

lemma pyIntStr_ne_empty (n : Int) : pyIntStr n ≠ "" := by
  unfold pyIntStr
  by_cases h : n < 0
  · rw [if_pos h]
    intro hc
    exact absurd (congrArg String.data hc) (by simp)
  · rw [if_neg h]
    intro hc
    exact natDigits_ne_nil n.toNat (congrArg String.data hc)

/-! ### Round trip of each class of key -/

lemma roundtrip_key_autorun (f : List XmlNode) :
    (loadSettings (saveFile (loadSettings f))).lookup "autorun"
      = (loadSettings f).lookup "autorun" := by
  have hnd : KeysNodup (loadSettings f) := keysNodup_loadSettings f
  unfold loadSettings at hnd ⊢
  rw [lookup_convert_autorun, lookup_convert_autorun,
    lookup_load_saveFile _ _ _ hnd (by decide), lookup_convert_autorun]
  cases boolFixVal ((f.foldl loadNode defaultSettings).lookup "autorun") <;> decide

lemma roundtrip_key_schedule_enabled (f : List XmlNode) :
    (loadSettings (saveFile (loadSettings f))).lookup "schedule_enabled"
      = (loadSettings f).lookup "schedule_enabled" := by
  have hnd : KeysNodup (loadSettings f) := keysNodup_loadSettings f
  unfold loadSettings at hnd ⊢
  rw [lookup_convert_schedule_enabled, lookup_convert_schedule_enabled,
    lookup_load_saveFile _ _ _ hnd (by decide), lookup_convert_schedule_enabled]
  cases boolFixVal ((f.foldl loadNode defaultSettings).lookup "schedule_enabled") <;> decide

lemma roundtrip_key_interval (f : List XmlNode) :
    (loadSettings (saveFile (loadSettings f))).lookup "interval_value"
      = (loadSettings f).lookup "interval_value" := by
  have hnd : KeysNodup (loadSettings f) := keysNodup_loadSettings f
  unfold loadSettings at hnd ⊢
  rw [lookup_convert_interval, lookup_convert_interval,
    lookup_load_saveFile _ _ _ hnd (by decide), lookup_convert_interval]
  set n0 := intFixVal ((f.foldl loadNode defaultSettings).lookup "interval_value") with hn0
  have hrel : reloadVal (.intV n0) = .str (pyIntStr n0) := by
    simp [reloadVal, pyStr, pyIntStr_ne_empty n0]
  simp only [hrel]
  simp [intFixVal, pyIntOf, pyInt_pyIntStr n0, pyStr]

lemma roundtrip_key_string (f : List XmlNode) (k : String) (hk : k ∈ stringKeys) :
    (loadSettings (saveFile (loadSettings f))).lookup k
      = (loadSettings f).lookup k := by
  have hnd : KeysNodup (loadSettings f) := keysNodup_loadSettings f
  have hkp : k ≠ "parameters" := by rintro rfl; exact absurd hk (by decide)
  unfold loadSettings at hnd ⊢
  rw [lookup_convert_stringKey _ _ hk, lookup_convert_stringKey _ _ hk,
    lookup_load_saveFile _ _ _ hnd hkp, lookup_convert_stringKey _ _ hk]
  set v := strFixVal ((f.foldl loadNode defaultSettings).lookup k) with hv0
  by_cases hv : v = ""
  · simp [hv, reloadVal, pyStr, strFixVal]
  · simp [reloadVal, pyStr, hv, strFixVal]

lemma roundtrip_key_custom (f : List XmlNode) (k : String) (v : String)
    (hs : (loadSettings f).lookup k = some (.str v)) (hv : v ≠ "")
    (hkp : k ≠ "parameters") :
    (loadSettings (saveFile (loadSettings f))).lookup k = some (.str v) := by
  by_cases hk : k ∈ stringKeys
  · rw [roundtrip_key_string f k hk, hs]
  · have hnd : KeysNodup (loadSettings f) := keysNodup_loadSettings f
    unfold loadSettings at hnd hs ⊢
    have h1 : k ≠ "autorun" := by
      rintro rfl
      rw [lookup_convert_autorun] at hs
      exact SVal.noConfusion (Option.some.inj hs)
    have h2 : k ≠ "schedule_enabled" := by
      rintro rfl
      rw [lookup_convert_schedule_enabled] at hs
      exact SVal.noConfusion (Option.some.inj hs)
    have h3 : k ≠ "interval_value" := by
      rintro rfl
      rw [lookup_convert_interval] at hs
      exact SVal.noConfusion (Option.some.inj hs)
    rw [lookup_convert_other _ _ hk h1 h2 h3, lookup_load_saveFile _ _ _ hnd hkp, hs]
    simp [reloadVal, pyStr, hv]

/-- C8 counterexample, two failure modes of the round trip on custom
parameters.  (1) A `<parameters>` block holding `foo` with the
empty-string value: the first load stores the empty string, saving
writes `<foo/>` (an element with no text), and the reload stores Python
`None` — a difference no documented defaulting explains, since the
loader's defaulting passes never touch custom keys.  (2) A custom
parameter literally named `parameters`: the first load stores its
value, but saving writes it as a `<parameters>…</parameters>` element,
which the reload's tag dispatch treats as a parameters block with no
children — the field is dropped entirely. -/
theorem roundtrip_not_idempotent_for_custom_params :
    ((loadSettings [XmlNode.paramsBlock [("foo", some "")]]).lookup "foo"
        = some (.str "") ∧
      (loadSettings (saveFile (loadSettings
          [XmlNode.paramsBlock [("foo", some "")]]))).lookup "foo"
        = some SVal.nil) ∧
    ((loadSettings [XmlNode.paramsBlock [("parameters", some "x")]]).lookup "parameters"
        = some (.str "x") ∧
      (loadSettings (saveFile (loadSettings
          [XmlNode.paramsBlock [("parameters", some "x")]]))).lookup "parameters"
        = none) := by decide

/-- C8 amended: the load–save–load round trip is idempotent on every
documented field (the twelve defaulted keys) and on every field whose
first-load value is a non-empty string and whose name is not
`parameters` — which covers every custom parameter except the two
counterexample families: an empty-valued one reloads as `None`, and one
named `parameters` is dropped by the reload's tag dispatch. -/
theorem load_save_load_roundtrip (f : List XmlNode) (k : String) :
    (k ∈ dictKeys defaultSettings →
      (loadSettings (saveFile (loadSettings f))).lookup k = (loadSettings f).lookup k) ∧
    (∀ v, (loadSettings f).lookup k = some (.str v) → v ≠ "" → k ≠ "parameters" →
      (loadSettings (saveFile (loadSettings f))).lookup k = some (.str v)) := by
  constructor
  · intro hk
    have hk' : k = "path" ∨ k = "command" ∨ k = "url" ∨ k = "autorun" ∨
        k = "schedule_enabled" ∨ k = "schedule_type" ∨ k = "interval_value" ∨
        k = "interval_unit" ∨ k = "schedule_time" ∨ k = "display_name" ∨
        k = "short_name" ∨ k = "group" := by
      simpa [dictKeys, defaultSettings] using hk
    rcases hk' with rfl | rfl | rfl | rfl | rfl | rfl | rfl | rfl | rfl | rfl | rfl | rfl
    · exact roundtrip_key_string f _ (by decide)
    · exact roundtrip_key_string f _ (by decide)
    · exact roundtrip_key_string f _ (by decide)
    · exact roundtrip_key_autorun f
    · exact roundtrip_key_schedule_enabled f
    · exact roundtrip_key_string f _ (by decide)
    · exact roundtrip_key_interval f
    · exact roundtrip_key_string f _ (by decide)
    · exact roundtrip_key_string f _ (by decide)
    · exact roundtrip_key_string f _ (by decide)
    · exact roundtrip_key_string f _ (by decide)
    · exact roundtrip_key_string f _ (by decide)
  · intro v hs hv hkp
    exact roundtrip_key_custom f k v hs hv hkp

/-- C8 witness: a concrete file exercising a documented field and a
non-empty custom parameter. -/
theorem load_save_load_roundtrip_witness :
    (loadSettings (saveFile (loadSettings
        [XmlNode.el "command" (some "ping x"),
         XmlNode.paramsBlock [("foo", some "bar")]]))).lookup "command"
      = (loadSettings [XmlNode.el "command" (some "ping x"),
          XmlNode.paramsBlock [("foo", some "bar")]]).lookup "command" ∧
    (loadSettings (saveFile (loadSettings
        [XmlNode.el "command" (some "ping x"),
         XmlNode.paramsBlock [("foo", some "bar")]]))).lookup "foo"
      = some (.str "bar") := by
  refine ⟨(load_save_load_roundtrip _ "command").1 (by decide),
    (load_save_load_roundtrip _ "foo").2 "bar" (by decide) (by decide) (by decide)⟩

end Panel
